import Mathlib

/-!
Verification of the rmmp resilient-fetch subsystem.

The mirror-catalog component (`GetProxies`, `GetBestProxy`, `ClearCache`,
`isCacheValid`, `fetchFromAPI`, …) is embedded from the Go source file that
defines `GitHubProxyManager`.  Strings are embedded as `List Char`, Go
`float64` as `ℚ` (exact arithmetic with the same literals), Go `int` as `ℤ`,
and timestamps/durations as `ℤ` nanosecond counts, exactly as Go's `time`
package represents them.  File-system and network
effects are made explicit: an `Env` value records the state of the cache file,
the outcome the directory service would produce, and whether the cache write
or file removal would fail; each operation returns its result together with
the new cache-file state, and the catalog query additionally reports how many
directory-service calls it performed.
-/

abbrev URL := List Char

/-- Embeds the Go struct `GitHubProxyData` (one mirror record). -/
structure GitHubProxyData where
  URL : List Char
  Server : List Char
  IP : List Char
  Location : List Char
  Latency : ℤ
  Speed : ℚ
deriving DecidableEq, Repr

/-- Embeds the Go struct `GitHubProxyResponse` (directory-service payload). -/
structure GitHubProxyResponse where
  Code : ℤ
  Message : List Char
  Data : List GitHubProxyData
  Total : ℤ
  UpdateTime : List Char
deriving DecidableEq, Repr

/-- Embeds the Go struct `ProxyCache` (the persisted snapshot);
`CacheTime` is a timestamp in nanoseconds, as Go `time` values are. -/
structure ProxyCache where
  Data : List GitHubProxyData
  CacheTime : ℤ
  UpdateTime : List Char
  Total : ℤ
deriving DecidableEq, Repr

/-- `cacheValidDuration = 10 * time.Hour`: a Go `time.Duration` is an int64
count of nanoseconds, so this is 10 hours in nanoseconds. -/
def cacheValidDuration : ℤ := 10 * 60 * 60 * 1000000000

/-- State of the cache file on disk: absent, present but failing
`os.ReadFile`/`json.Unmarshal`, or present and holding a parseable snapshot. -/
inductive CacheFileState
  | absent
  | unreadable
  | stored (c : ProxyCache)
deriving DecidableEq, Repr

/-- What the single `http.Get` of the directory service would observe:
a transport error, or a response carrying a status code and a body. -/
inductive BodyResult
  | readErr
  | bytes (parsed : Option GitHubProxyResponse)
deriving DecidableEq, Repr

inductive HTTPResult
  | err
  | resp (statusCode : ℤ) (body : BodyResult)
deriving DecidableEq, Repr

/-- Error kinds surfaced by the embedded operations. -/
inductive DLError
  | transportError
  | statusError (code : ℤ)
  | readError
  | parseError
  | directoryError (msg : List Char)
  | emptyCatalog
  | allAttemptsFailed
  | removeError
  | cacheReadError
  | mkdirError
  | invalidRepo
deriving DecidableEq, Repr

/-- The explicit environment a catalog operation runs in. -/
structure Env where
  cache : CacheFileState
  now : ℤ
  api : HTTPResult
  saveFails : Bool
  removeFails : Bool
deriving DecidableEq, Repr

/-- Embeds `fileExists` (via `os.Stat`): true iff the cache file is present. -/
def fileExists : CacheFileState → Bool
  | .absent => false
  | .unreadable => true
  | .stored _ => true

/-- Embeds `isCacheValid`: the file must exist, be readable and parseable, and
`time.Since(cache.CacheTime) > cacheValidDuration` must not hold. -/
def isCacheValid (e : Env) : Bool :=
  match e.cache with
  | .absent => false
  | .unreadable => false
  | .stored c => !decide (e.now - c.CacheTime > cacheValidDuration)

/-- Embeds `loadFromCache`: re-reads the cache file and returns its records. -/
def loadFromCache (e : Env) : Except DLError (List GitHubProxyData) :=
  match e.cache with
  | .stored c => .ok c.Data
  | _ => .error .cacheReadError

/-- Embeds `saveToCache`: on success the snapshot is overwritten with the
fresh records stamped at the current time; on failure the file is unchanged. -/
def saveToCache (e : Env) (apiResponse : GitHubProxyResponse) : CacheFileState :=
  if e.saveFails then e.cache
  else .stored ⟨apiResponse.Data, e.now, apiResponse.UpdateTime, apiResponse.Total⟩

/-- Embeds `fetchFromAPI`: one `http.Get`, then the chain of checks
(status code 200, body readable, JSON parseable, application code 200);
on success the snapshot is persisted, but a persistence failure is only
reported and the freshly fetched records are returned anyway. -/
def fetchFromAPI (e : Env) : Except DLError (List GitHubProxyData) × CacheFileState :=
  match e.api with
  | .err => (.error .transportError, e.cache)
  | .resp statusCode body =>
    if statusCode ≠ 200 then (.error (.statusError statusCode), e.cache)
    else
      match body with
      | .readErr => (.error .readError, e.cache)
      | .bytes none => (.error .parseError, e.cache)
      | .bytes (some apiResponse) =>
        if apiResponse.Code ≠ 200 then (.error (.directoryError apiResponse.Message), e.cache)
        else (.ok apiResponse.Data, saveToCache e apiResponse)

deriving instance DecidableEq for Except

/-- Result of a catalog query: the returned records (or error), the state of
the cache file afterwards, and the number of directory-service calls made. -/
structure CatalogOutcome where
  result : Except DLError (List GitHubProxyData)
  cacheAfter : CacheFileState
  apiCalls : ℕ
deriving DecidableEq, Repr

/-- Embeds `GetProxies`: a valid cache is answered from disk with no network
call; otherwise exactly one directory-service call is made. -/
def GetProxies (e : Env) : CatalogOutcome :=
  if isCacheValid e then ⟨loadFromCache e, e.cache, 0⟩
  else
    let r := fetchFromAPI e
    ⟨r.1, r.2, 1⟩

/-- Embeds `ClearCache`: an absent file is success; otherwise `os.Remove`
either fails (file kept) or removes the file. -/
def ClearCache (e : Env) : Except DLError Unit × CacheFileState :=
  if !fileExists e.cache then (.ok (), e.cache)
  else if e.removeFails then (.error .removeError, e.cache)
  else (.ok (), .absent)

/-- Embeds the score expression of `GetBestProxy`:
`proxy.Speed*0.6 + (1000.0-float64(proxy.Latency))/1000.0*0.4`. -/
def proxyScore (p : GitHubProxyData) : ℚ :=
  p.Speed * 0.6 + (1000 - (p.Latency : ℚ)) / 1000 * 0.4

/-- One iteration of the selection loop of `GetBestProxy`: the accumulator is
`(bestProxy, bestScore)`, started at `(none, -1)`, and a candidate is accepted
when `bestScore < 0 || score > bestScore`. -/
def bestStep (acc : Option GitHubProxyData × ℚ) (proxy : GitHubProxyData) :
    Option GitHubProxyData × ℚ :=
  let score := proxyScore proxy
  if acc.2 < 0 ∨ score > acc.2 then (some proxy, score) else acc

/-- The selection loop of `GetBestProxy` over a record list. -/
def selectBest (proxies : List GitHubProxyData) : Option GitHubProxyData :=
  (proxies.foldl bestStep (none, -1)).1

/-- Embeds `GetBestProxy`: obtain the records via `GetProxies`, fail on an
empty catalog, otherwise run the selection loop (the returned pointer is
`none` only if the loop never accepted a candidate). -/
def GetBestProxy (e : Env) : Except DLError (Option GitHubProxyData) :=
  match (GetProxies e).result with
  | .error err => .error err
  | .ok proxies =>
    if proxies.isEmpty then .error .emptyCatalog
    else .ok (selectBest proxies)

/-!
The fallback-fetch subsystem, embedded from the Go source file defining
`ModuleDownloader` (`downloadUpdateJSON`, `parseUpdateJSON`, `downloadModule`,
`extractGitHubURL`, `downloadWithProxies`, `handleGetCommand`).  The primitive
timeout-bounded transfers `downloadWithTimeout` and `downloadFile` are
abstracted as oracles `fetch : URL → Option β` (`some` = HTTP 200 with a
body/written file, `none` = request error, non-200 status or timeout of that
single attempt); the mirror list that `md.gpm.GetProxies()` would yield is a
parameter — its cache-or-refresh behaviour is the catalog component above,
and its own failure aborts a chain before any mirror attempt.  Each chain
returns, besides its result, the ordered trace of URLs it actually attempted.
`os.MkdirAll` of the download directory is an explicit boolean, and the
confirmation prompt and installer dispatch that follow a successful download
in `handleGetCommand` are outside the embedding.
-/

/-- `md.maxRetry = 10`: the mirror-attempt ceiling of both mirror loops. -/
def maxRetry : ℕ := 10

/-- Embeds the Go struct `UpdateInfo` as decoded by `json.Unmarshal`; a field
absent from the JSON takes its Go zero value, so an absent `zipUrl` decodes to
an empty `ZipURL`. -/
structure UpdateInfo where
  Changelog : List Char
  Version : List Char
  VersionCode : ℤ
  ZipURL : URL
deriving DecidableEq, Repr

/-- Embeds `parseUpdateJSON`: the argument is `none` when `json.Unmarshal`
fails on the body, and a decoded manifest whose `ZipURL` is empty (hence also
one whose `zipUrl` field was absent) is rejected. -/
def parseUpdateJSON (data : Option UpdateInfo) : Except DLError UpdateInfo :=
  match data with
  | none => .error .parseError
  | some updateInfo =>
    if updateInfo.ZipURL = [] then .error .parseError
    else .ok updateInfo

def ghMirrorPrefix1 : URL := "https://ghproxy.cc/".toList

def ghMirrorPrefix2 : URL := "https://ghproxy.cn/".toList

def ghMirrorPrefix3 : URL := "https://gh.b52m.cn/".toList

def ghMirrorPrefix4 : URL := "https://github.moeyy.xyz/".toList

def ghMirrorPrefix5 : URL := "https://mirror.ghproxy.com/".toList

/-- The fixed list of known mirror prefixes of `extractGitHubURL`, in source
order. -/
def mirrorPrefixes : List URL :=
  [ghMirrorPrefix1, ghMirrorPrefix2, ghMirrorPrefix3, ghMirrorPrefix4, ghMirrorPrefix5]

/-- Embeds `extractGitHubURL`: the first listed prefix the URL starts with is
trimmed from it; if none matches the URL is returned unchanged. -/
def extractGitHubURL (url : URL) : URL :=
  match mirrorPrefixes.find? (fun p => p.isPrefixOf url) with
  | some p => url.drop p.length
  | none => url

/-- Embeds `strings.TrimSuffix(proxy.URL, "/")`. -/
def stripTrailingSlash (u : URL) : URL :=
  if u.getLast? = some '/' then u.dropLast else u

/-- Embeds the mirror-URL construction shared by `downloadUpdateJSON` and
`downloadWithProxies`: `fmt.Sprintf("%s/%s", strings.TrimSuffix(proxy.URL,
"/"), originalURL)` — the base with its trailing slash trimmed, a `/`
separator, then the original URL. -/
def proxyURL (proxy : GitHubProxyData) (originalURL : URL) : URL :=
  stripTrailingSlash proxy.URL ++ '/' :: originalURL

/-- Stable insertion of a record into a list already sorted by `Speed`
descending. -/
def insertBySpeed (m : GitHubProxyData) : List GitHubProxyData → List GitHubProxyData
  | [] => [m]
  | x :: xs => if x.Speed < m.Speed then m :: x :: xs else x :: insertBySpeed m xs

/-- Embeds the `sort.Slice(proxies, func(i, j) { Speed[i] > Speed[j] })`
ranking used by both mirror loops, as an insertion sort by `Speed`
descending.  (`sort.Slice` is unstable, leaving the relative order of
equal-speed records unspecified; the embedding fixes the stable order.) -/
def rankMirrors : List GitHubProxyData → List GitHubProxyData
  | [] => []
  | x :: xs => insertBySpeed x (rankMirrors xs)

/-- The ordered mirror-wrapped candidate URLs a mirror loop enumerates:
ranked mirrors truncated at the `maxRetry` ceiling, each wrapping
`originalURL`.  (The loops count `tried` only on failure and return on
success, so they attempt exactly a first-success-terminated prefix of this
sequence.) -/
def proxyCandidates (originalURL : URL) (proxies : List GitHubProxyData) : List URL :=
  ((rankMirrors proxies).take maxRetry).map (fun p => proxyURL p originalURL)

/-- The shared shape of the sequential attempt loops: try the candidate URLs
in order, stopping at the first success; returns the trace of attempted URLs
and the first success, if any. -/
def firstSuccess (fetch : URL → Option α) : List URL → List URL × Option α
  | [] => ([], none)
  | u :: rest =>
    match fetch u with
    | some body => ([u], some body)
    | none => (u :: (firstSuccess fetch rest).1, (firstSuccess fetch rest).2)

/-- Embeds `downloadUpdateJSON`, given the mirror list: one direct attempt on
the manifest URL, whose successful body is parsed at once; otherwise the
ranked mirror loop, parsing the body of its first success; if every attempt
fails, the aggregate all-attempts-failed error. -/
def downloadUpdateJSON (fetch : URL → Option (Option UpdateInfo)) (originalURL : URL)
    (proxies : List GitHubProxyData) : List URL × Except DLError UpdateInfo :=
  match fetch originalURL with
  | some data => ([originalURL], parseUpdateJSON data)
  | none =>
    match firstSuccess fetch (proxyCandidates originalURL proxies) with
    | (t, some data) => (originalURL :: t, parseUpdateJSON data)
    | (t, none) => (originalURL :: t, .error .allAttemptsFailed)

/-- Embeds `downloadWithProxies`, given the mirror list: the ranked mirror
loop only — this function makes no direct attempt on `originalURL`. -/
def downloadWithProxies (fetch : URL → Option Unit) (originalURL : URL)
    (proxies : List GitHubProxyData) : List URL × Except DLError Unit :=
  match firstSuccess fetch (proxyCandidates originalURL proxies) with
  | (t, some _) => (t, .ok ())
  | (t, none) => (t, .error .allAttemptsFailed)

/-- Embeds `downloadModule` (the local file name and save path are outside
the embedding): after the download directory is created, a first direct
attempt on `updateInfo.ZipURL` exactly as given; on failure the URL is
canonicalized, and — only if that changed it — a second direct attempt on
the extracted GitHub URL; finally the mirror loop of `downloadWithProxies`
over the extracted URL. -/
def downloadModule (mkdirOk : Bool) (fetch : URL → Option Unit) (updateInfo : UpdateInfo)
    (proxies : List GitHubProxyData) : List URL × Except DLError Unit :=
  if mkdirOk then
    match fetch updateInfo.ZipURL with
    | some _ => ([updateInfo.ZipURL], .ok ())
    | none =>
      if extractGitHubURL updateInfo.ZipURL ≠ updateInfo.ZipURL then
        match fetch (extractGitHubURL updateInfo.ZipURL) with
        | some _ => ([updateInfo.ZipURL, extractGitHubURL updateInfo.ZipURL], .ok ())
        | none =>
          (updateInfo.ZipURL :: extractGitHubURL updateInfo.ZipURL ::
              (downloadWithProxies fetch (extractGitHubURL updateInfo.ZipURL) proxies).1,
            (downloadWithProxies fetch (extractGitHubURL updateInfo.ZipURL) proxies).2)
      else
        (updateInfo.ZipURL :: (downloadWithProxies fetch (extractGitHubURL updateInfo.ZipURL) proxies).1,
          (downloadWithProxies fetch (extractGitHubURL updateInfo.ZipURL) proxies).2)
  else ([], .error .mkdirError)

/-- The full candidate sequence of the payload chain of `downloadModule`: the
payload URL as given, then — when canonicalization changes it — the extracted
GitHub URL, then the mirror-wrapped candidates of the extracted URL. -/
def payloadCandidates (updateInfo : UpdateInfo) (proxies : List GitHubProxyData) : List URL :=
  if extractGitHubURL updateInfo.ZipURL ≠ updateInfo.ZipURL then
    updateInfo.ZipURL :: extractGitHubURL updateInfo.ZipURL ::
      proxyCandidates (extractGitHubURL updateInfo.ZipURL) proxies
  else
    updateInfo.ZipURL :: proxyCandidates (extractGitHubURL updateInfo.ZipURL) proxies

/-- The full candidate sequence of the manifest chain of
`downloadUpdateJSON`: the manifest URL directly, then its mirror-wrapped
candidates. -/
def manifestCandidates (originalURL : URL) (proxies : List GitHubProxyData) : List URL :=
  originalURL :: proxyCandidates originalURL proxies

/-- The segmentation `strings.Split(s, "/")` performs on the slash
character. -/
def splitOnSlash : List Char → List (List Char)
  | [] => [[]]
  | c :: cs =>
    if c = '/' then [] :: splitOnSlash cs
    else
      match splitOnSlash cs with
      | [] => [[c]]
      | s :: ss => (c :: s) :: ss

/-- Embeds `normalizeRepoName`: backslashes become slashes; unless the result
splits into exactly two segments the name is invalid (empty); otherwise it is
`owner/repo` rejoined. -/
def normalizeRepoName (repo : URL) : URL :=
  match splitOnSlash (repo.map (fun c => if c = '\\' then '/' else c)) with
  | [a, b] => a ++ '/' :: b
  | _ => []

/-- Embeds `buildUpdateURL`. -/
def buildUpdateURL (repo : URL) : URL :=
  "https://github.com/".toList ++ repo ++ "/releases/latest/download/update.json".toList

/-- Outcome of the fetch-module workflow: the manifest-fetch trace, the
payload-fetch trace, and the download result. -/
structure GetOutcome where
  manifestTrace : List URL
  payloadTrace : List URL
  result : Except DLError Unit
deriving DecidableEq, Repr

/-- Embeds `handleGetCommand` up to the end of its download phase (the
confirmation prompt and installer dispatch that follow a successful download
are outside the embedding): normalize the repository name, download and parse
the manifest through the fallback chain, and only on success download the
payload. -/
def handleGetCommand (fetchManifest : URL → Option (Option UpdateInfo))
    (fetchPayload : URL → Option Unit) (mkdirOk : Bool) (repoArg : URL)
    (proxies : List GitHubProxyData) : GetOutcome :=
  if normalizeRepoName repoArg = [] then ⟨[], [], .error .invalidRepo⟩
  else
    match downloadUpdateJSON fetchManifest (buildUpdateURL (normalizeRepoName repoArg)) proxies with
    | (mt, .error e) => ⟨mt, [], .error e⟩
    | (mt, .ok updateInfo) =>
      ⟨mt, (downloadModule mkdirOk fetchPayload updateInfo proxies).1,
        (downloadModule mkdirOk fetchPayload updateInfo proxies).2⟩

/-! ### Helper lemmas about the URL normalizer -/

theorem not_prefix_append_of_ne_at (a b : URL) (k : ℕ) (hka : k < a.length)
    (hkb : k < b.length) (hne : a.get ⟨k, hka⟩ ≠ b.get ⟨k, hkb⟩) (r : URL) :
    ¬ a <+: b ++ r := by
  intro h
  have h1 := h.getElem hka
  rw [List.getElem_append_left hkb] at h1
  exact hne (by simpa [List.get_eq_getElem] using h1)

theorem extract_strip (p : URL) (hp : p ∈ mirrorPrefixes) (rest : URL) :
    extractGitHubURL (p ++ rest) = rest := by
  have h12 := not_prefix_append_of_ne_at ghMirrorPrefix1 ghMirrorPrefix2 17
    (by decide) (by decide) (by decide) rest
  have h13 := not_prefix_append_of_ne_at ghMirrorPrefix1 ghMirrorPrefix3 10
    (by decide) (by decide) (by decide) rest
  have h23 := not_prefix_append_of_ne_at ghMirrorPrefix2 ghMirrorPrefix3 10
    (by decide) (by decide) (by decide) rest
  have h14 := not_prefix_append_of_ne_at ghMirrorPrefix1 ghMirrorPrefix4 9
    (by decide) (by decide) (by decide) rest
  have h24 := not_prefix_append_of_ne_at ghMirrorPrefix2 ghMirrorPrefix4 9
    (by decide) (by decide) (by decide) rest
  have h34 := not_prefix_append_of_ne_at ghMirrorPrefix3 ghMirrorPrefix4 9
    (by decide) (by decide) (by decide) rest
  have h15 := not_prefix_append_of_ne_at ghMirrorPrefix1 ghMirrorPrefix5 8
    (by decide) (by decide) (by decide) rest
  have h25 := not_prefix_append_of_ne_at ghMirrorPrefix2 ghMirrorPrefix5 8
    (by decide) (by decide) (by decide) rest
  have h35 := not_prefix_append_of_ne_at ghMirrorPrefix3 ghMirrorPrefix5 8
    (by decide) (by decide) (by decide) rest
  have h45 := not_prefix_append_of_ne_at ghMirrorPrefix4 ghMirrorPrefix5 8
    (by decide) (by decide) (by decide) rest
  have hself : ∀ q : URL, q.isPrefixOf (q ++ rest) = true :=
    fun q => List.isPrefixOf_iff_prefix.mpr (List.prefix_append q rest)
  rcases (by simpa [mirrorPrefixes] using hp : p = ghMirrorPrefix1 ∨ p = ghMirrorPrefix2 ∨
      p = ghMirrorPrefix3 ∨ p = ghMirrorPrefix4 ∨ p = ghMirrorPrefix5) with
    rfl | rfl | rfl | rfl | rfl
  · have hfind : mirrorPrefixes.find? (fun q => q.isPrefixOf (ghMirrorPrefix1 ++ rest))
        = some ghMirrorPrefix1 := by
      unfold mirrorPrefixes
      rw [List.find?_cons_of_pos]
      exact hself ghMirrorPrefix1
    unfold extractGitHubURL
    rw [hfind]
    exact List.drop_left ghMirrorPrefix1 rest
  · have hfind : mirrorPrefixes.find? (fun q => q.isPrefixOf (ghMirrorPrefix2 ++ rest))
        = some ghMirrorPrefix2 := by
      unfold mirrorPrefixes
      rw [List.find?_cons_of_neg]
      · rw [List.find?_cons_of_pos]
        exact hself ghMirrorPrefix2
      · simpa [ List.isPrefixOf_iff_prefix] using h12
    unfold extractGitHubURL
    rw [hfind]
    exact List.drop_left ghMirrorPrefix2 rest
  · have hfind : mirrorPrefixes.find? (fun q => q.isPrefixOf (ghMirrorPrefix3 ++ rest))
        = some ghMirrorPrefix3 := by
      unfold mirrorPrefixes
      rw [List.find?_cons_of_neg]
      · rw [List.find?_cons_of_neg]
        · rw [List.find?_cons_of_pos]
          exact hself ghMirrorPrefix3
        · simpa [ List.isPrefixOf_iff_prefix] using h23
      · simpa [ List.isPrefixOf_iff_prefix] using h13
    unfold extractGitHubURL
    rw [hfind]
    exact List.drop_left ghMirrorPrefix3 rest
  · have hfind : mirrorPrefixes.find? (fun q => q.isPrefixOf (ghMirrorPrefix4 ++ rest))
        = some ghMirrorPrefix4 := by
      unfold mirrorPrefixes
      rw [List.find?_cons_of_neg]
      · rw [List.find?_cons_of_neg]
        · rw [List.find?_cons_of_neg]
          · rw [List.find?_cons_of_pos]
            exact hself ghMirrorPrefix4
          · simpa [ List.isPrefixOf_iff_prefix] using h34
        · simpa [ List.isPrefixOf_iff_prefix] using h24
      · simpa [ List.isPrefixOf_iff_prefix] using h14
    unfold extractGitHubURL
    rw [hfind]
    exact List.drop_left ghMirrorPrefix4 rest
  · have hfind : mirrorPrefixes.find? (fun q => q.isPrefixOf (ghMirrorPrefix5 ++ rest))
        = some ghMirrorPrefix5 := by
      unfold mirrorPrefixes
      rw [List.find?_cons_of_neg]
      · rw [List.find?_cons_of_neg]
        · rw [List.find?_cons_of_neg]
          · rw [List.find?_cons_of_neg]
            · rw [List.find?_cons_of_pos]
              exact hself ghMirrorPrefix5
            · simpa [ List.isPrefixOf_iff_prefix] using h45
          · simpa [ List.isPrefixOf_iff_prefix] using h35
        · simpa [ List.isPrefixOf_iff_prefix] using h25
      · simpa [ List.isPrefixOf_iff_prefix] using h15
    unfold extractGitHubURL
    rw [hfind]
    exact List.drop_left ghMirrorPrefix5 rest

theorem extract_miss (url : URL) (h : ∀ p ∈ mirrorPrefixes, ¬ p <+: url) :
    extractGitHubURL url = url := by
  have hnone : mirrorPrefixes.find? (fun p => p.isPrefixOf url) = none :=
    List.find?_eq_none.mpr fun p hp => by
      simpa [ List.isPrefixOf_iff_prefix] using h p hp
  simp [extractGitHubURL, hnone]

/-! ### Helper lemmas about the fallback chains -/

theorem firstSuccess_trace_isPrefix {α : Type} (f : URL → Option α) (l : List URL) :
    (firstSuccess f l).1 <+: l := by
  induction l with
  | nil => simp [firstSuccess]
  | cons u rest ih =>
    cases hf : f u with
    | some b => simp [firstSuccess, hf]
    | none => simpa [firstSuccess, hf, List.cons_prefix_cons] using ih

theorem firstSuccess_trace_head {α : Type} (f : URL → Option α) (l : List URL) :
    (firstSuccess f l).1.head? = l.head? := by
  cases l with
  | nil => rfl
  | cons u rest => cases hf : f u <;> simp [firstSuccess, hf]

theorem firstSuccess_dropLast_fail {α : Type} (f : URL → Option α) (l : List URL) :
    ∀ u ∈ (firstSuccess f l).1.dropLast, f u = none := by
  induction l with
  | nil => intro u hu; simp [firstSuccess] at hu
  | cons v rest ih =>
    cases hf : f v with
    | some b => intro u hu; simp [firstSuccess, hf] at hu
    | none =>
      intro u hu
      simp only [firstSuccess, hf] at hu
      cases ht : (firstSuccess f rest).1 with
      | nil => rw [ht] at hu; simp at hu
      | cons w ws =>
        rw [ht, List.dropLast_cons₂] at hu
        rcases List.mem_cons.mp hu with h | h
        · subst h; exact hf
        · exact ih u (by rw [ht]; exact h)

theorem firstSuccess_last_ok {α : Type} (f : URL → Option α) (l : List URL) (b : α) :
    (firstSuccess f l).2 = some b →
    ∃ h : (firstSuccess f l).1 ≠ [], f ((firstSuccess f l).1.getLast h) = some b := by
  induction l with
  | nil => intro hb; simp [firstSuccess] at hb
  | cons v rest ih =>
    cases hf : f v with
    | some c =>
      intro hb
      simp only [firstSuccess, hf] at hb ⊢
      obtain rfl : c = b := by simpa using hb
      exact ⟨by simp, by simpa using hf⟩
    | none =>
      intro hb
      simp only [firstSuccess, hf] at hb ⊢
      obtain ⟨h, hl⟩ := ih hb
      refine ⟨by simp, ?_⟩
      rw [List.getLast_cons h]
      exact hl

theorem firstSuccess_none_iff {α : Type} (f : URL → Option α) (l : List URL) :
    (firstSuccess f l).2 = none ↔ ∀ u ∈ l, f u = none := by
  induction l with
  | nil => simp [firstSuccess]
  | cons v rest ih =>
    cases hf : f v with
    | some b => simp [firstSuccess, hf]
    | none => simp [firstSuccess, hf, ih]

theorem firstSuccess_none_trace {α : Type} (f : URL → Option α) (l : List URL) :
    (firstSuccess f l).2 = none → (firstSuccess f l).1 = l := by
  induction l with
  | nil => intro _; rfl
  | cons v rest ih =>
    cases hf : f v with
    | some b => intro h; simp [firstSuccess, hf] at h
    | none =>
      intro h
      simp only [firstSuccess, hf] at h ⊢
      rw [ih h]

theorem proxyCandidates_length_le (o : URL) (ps : List GitHubProxyData) :
    (proxyCandidates o ps).length ≤ maxRetry := by
  simp only [proxyCandidates, List.length_map, List.length_take]
  omega

theorem parseUpdateJSON_ne_allFailed (d : Option UpdateInfo) :
    parseUpdateJSON d ≠ .error .allAttemptsFailed := by
  match d with
  | none => simp [parseUpdateJSON]
  | some u =>
    by_cases h : u.ZipURL = [] <;> simp [parseUpdateJSON, h]

theorem downloadWithProxies_eq (f : URL → Option Unit) (o : URL)
    (ps : List GitHubProxyData) :
    downloadWithProxies f o ps
      = ((firstSuccess f (proxyCandidates o ps)).1,
          match (firstSuccess f (proxyCandidates o ps)).2 with
          | some _ => .ok ()
          | none => .error .allAttemptsFailed) := by
  unfold downloadWithProxies
  rcases h : firstSuccess f (proxyCandidates o ps) with ⟨t, r⟩
  cases r <;> rfl

theorem downloadUpdateJSON_eq_firstSuccess (fetch : URL → Option (Option UpdateInfo))
    (o : URL) (ps : List GitHubProxyData) :
    downloadUpdateJSON fetch o ps
      = ((firstSuccess fetch (manifestCandidates o ps)).1,
          match (firstSuccess fetch (manifestCandidates o ps)).2 with
          | some d => parseUpdateJSON d
          | none => .error .allAttemptsFailed) := by
  unfold downloadUpdateJSON manifestCandidates
  cases hz : fetch o with
  | some d => simp [firstSuccess, hz]
  | none =>
    rcases hr : firstSuccess fetch (proxyCandidates o ps) with ⟨t, r⟩
    simp only [firstSuccess, hz, hr]
    cases r <;> rfl

theorem downloadModule_eq_firstSuccess (fetch : URL → Option Unit)
    (updateInfo : UpdateInfo) (ps : List GitHubProxyData) :
    downloadModule true fetch updateInfo ps
      = ((firstSuccess fetch (payloadCandidates updateInfo ps)).1,
          match (firstSuccess fetch (payloadCandidates updateInfo ps)).2 with
          | some _ => .ok ()
          | none => .error .allAttemptsFailed) := by
  by_cases hg : extractGitHubURL updateInfo.ZipURL ≠ updateInfo.ZipURL
  · cases hz : fetch updateInfo.ZipURL with
    | some u =>
      cases u
      simp [downloadModule, payloadCandidates, hg, firstSuccess, hz]
    | none =>
      cases hgh : fetch (extractGitHubURL updateInfo.ZipURL) with
      | some u =>
        cases u
        simp [downloadModule, payloadCandidates, hg, firstSuccess, hz, hgh]
      | none =>
        rcases hr : firstSuccess fetch
            (proxyCandidates (extractGitHubURL updateInfo.ZipURL) ps) with ⟨t, r⟩
        simp only [downloadModule, payloadCandidates, if_pos hg, if_true,
          firstSuccess, hz, hgh, downloadWithProxies_eq, hr]
  · cases hz : fetch updateInfo.ZipURL with
    | some u =>
      cases u
      simp [downloadModule, payloadCandidates, hg, firstSuccess, hz]
    | none =>
      rcases hr : firstSuccess fetch
          (proxyCandidates (extractGitHubURL updateInfo.ZipURL) ps) with ⟨t, r⟩
      simp only [downloadModule, payloadCandidates, if_neg hg, if_true,
        firstSuccess, hz, downloadWithProxies_eq, hr]

theorem payloadCandidates_cons (updateInfo : UpdateInfo) (ps : List GitHubProxyData) :
    ∃ rest, payloadCandidates updateInfo ps = updateInfo.ZipURL :: rest := by
  unfold payloadCandidates
  by_cases hg : extractGitHubURL updateInfo.ZipURL ≠ updateInfo.ZipURL
  · exact ⟨_, by rw [if_pos hg]⟩
  · exact ⟨_, by rw [if_neg hg]⟩

theorem payloadCandidates_length_le (updateInfo : UpdateInfo)
    (ps : List GitHubProxyData) :
    (payloadCandidates updateInfo ps).length ≤ 2 + maxRetry := by
  have h := proxyCandidates_length_le (extractGitHubURL updateInfo.ZipURL) ps
  unfold payloadCandidates
  by_cases hg : extractGitHubURL updateInfo.ZipURL ≠ updateInfo.ZipURL
  · rw [if_pos hg]
    simp only [List.length_cons]
    omega
  · rw [if_neg hg]
    simp only [List.length_cons]
    omega

theorem payloadCandidates_length_le_of_fixed (updateInfo : UpdateInfo)
    (ps : List GitHubProxyData)
    (hg : extractGitHubURL updateInfo.ZipURL = updateInfo.ZipURL) :
    (payloadCandidates updateInfo ps).length ≤ 1 + maxRetry := by
  have h := proxyCandidates_length_le (extractGitHubURL updateInfo.ZipURL) ps
  unfold payloadCandidates
  rw [if_neg (by simp [hg])]
  simp only [List.length_cons]
  omega

/-! ### Claim theorems for the fallback fetcher and URL normalizer -/

def cOrigin : URL := "https://github.com/a/b/releases/download/v1/m.zip".toList

def cWrappedZip : URL := ghMirrorPrefix5 ++ cOrigin

def cInfoWrapped : UpdateInfo := ⟨[], "v1".toList, 7, cWrappedZip⟩

def cMirrors10 : List GitHubProxyData :=
  [⟨"https://p0/".toList, [], [], [], 10, 20⟩, ⟨"https://p1/".toList, [], [], [], 10, 19⟩,
   ⟨"https://p2/".toList, [], [], [], 10, 18⟩, ⟨"https://p3/".toList, [], [], [], 10, 17⟩,
   ⟨"https://p4/".toList, [], [], [], 10, 16⟩, ⟨"https://p5/".toList, [], [], [], 10, 15⟩,
   ⟨"https://p6/".toList, [], [], [], 10, 14⟩, ⟨"https://p7/".toList, [], [], [], 10, 13⟩,
   ⟨"https://p8/".toList, [], [], [], 10, 12⟩, ⟨"https://p9/".toList, [], [], [], 10, 11⟩]

/-- **C1** (counterexample).  On a mirror-wrapped payload URL with ten
mirrors and every attempt failing, the payload chain attempts `2 + 10`
pairwise-distinct endpoints — the wrapped URL, the extracted origin, and ten
mirror wraps — exceeding the claimed `1 + 10` ceiling, because
`downloadModule` makes a second direct attempt after canonicalization. -/
theorem C1_payload_exceeds_eleven_attempts :
    (downloadModule true (fun _ => none) cInfoWrapped cMirrors10).1.length = 2 + maxRetry
    ∧ ¬ ((downloadModule true (fun _ => none) cInfoWrapped cMirrors10).1.length
          ≤ 1 + maxRetry)
    ∧ (downloadModule true (fun _ => none) cInfoWrapped cMirrors10).1.Nodup := by
  decide

/-- **C1** (amended).  Both chains are strict sequential fallback chains over
their candidate sequences, every attempt before the last one failed, the
first success wins with no further candidate tried, and the aggregate
all-attempts-failed error comes exactly when every candidate failed.  The
manifest chain attempts the manifest URL directly and then at most 10 ranked
mirrors (`1 + 10` endpoints); the payload chain attempts the payload URL
directly, then — only when canonicalization changes it — the extracted origin
directly, then at most 10 ranked mirrors wrapping the extracted origin, so at
most `2 + 10` endpoints, and `1 + 10` when canonicalization is the
identity. -/
theorem C1_fallback_sequential_amended (fetchM : URL → Option (Option UpdateInfo))
    (fetchP : URL → Option Unit) (originalURL : URL) (updateInfo : UpdateInfo)
    (proxies : List GitHubProxyData) :
    ((downloadUpdateJSON fetchM originalURL proxies).1 <+: manifestCandidates originalURL proxies
    ∧ (downloadUpdateJSON fetchM originalURL proxies).1.head? = some originalURL
    ∧ (manifestCandidates originalURL proxies).length ≤ 1 + maxRetry
    ∧ (∀ u ∈ (downloadUpdateJSON fetchM originalURL proxies).1.dropLast, fetchM u = none)
    ∧ ((downloadUpdateJSON fetchM originalURL proxies).2 ≠ .error .allAttemptsFailed →
        ∃ h : (downloadUpdateJSON fetchM originalURL proxies).1 ≠ [], ∃ body,
          fetchM ((downloadUpdateJSON fetchM originalURL proxies).1.getLast h) = some body
          ∧ (downloadUpdateJSON fetchM originalURL proxies).2 = parseUpdateJSON body)
    ∧ ((downloadUpdateJSON fetchM originalURL proxies).2 = .error .allAttemptsFailed ↔
        ∀ u ∈ manifestCandidates originalURL proxies, fetchM u = none))
    ∧
    ((downloadModule true fetchP updateInfo proxies).1 <+: payloadCandidates updateInfo proxies
    ∧ (downloadModule true fetchP updateInfo proxies).1.head? = some updateInfo.ZipURL
    ∧ (payloadCandidates updateInfo proxies).length ≤ 2 + maxRetry
    ∧ (extractGitHubURL updateInfo.ZipURL = updateInfo.ZipURL →
        (payloadCandidates updateInfo proxies).length ≤ 1 + maxRetry)
    ∧ (∀ u ∈ (downloadModule true fetchP updateInfo proxies).1.dropLast, fetchP u = none)
    ∧ ((downloadModule true fetchP updateInfo proxies).2 = .ok () ↔
        ∃ h : (downloadModule true fetchP updateInfo proxies).1 ≠ [],
          fetchP ((downloadModule true fetchP updateInfo proxies).1.getLast h) = some ())
    ∧ ((downloadModule true fetchP updateInfo proxies).2 = .error .allAttemptsFailed ↔
        ∀ u ∈ payloadCandidates updateInfo proxies, fetchP u = none)
    ∧ ((downloadModule true fetchP updateInfo proxies).2 = .error .allAttemptsFailed →
        (downloadModule true fetchP updateInfo proxies).1
          = payloadCandidates updateInfo proxies)) := by
  have hm1 : (downloadUpdateJSON fetchM originalURL proxies).1
      = (firstSuccess fetchM (manifestCandidates originalURL proxies)).1 := by
    rw [downloadUpdateJSON_eq_firstSuccess]
  have hm2 : (downloadUpdateJSON fetchM originalURL proxies).2
      = match (firstSuccess fetchM (manifestCandidates originalURL proxies)).2 with
        | some d => parseUpdateJSON d
        | none => .error .allAttemptsFailed := by
    rw [downloadUpdateJSON_eq_firstSuccess]
  have hp1 : (downloadModule true fetchP updateInfo proxies).1
      = (firstSuccess fetchP (payloadCandidates updateInfo proxies)).1 := by
    rw [downloadModule_eq_firstSuccess]
  have hp2 : (downloadModule true fetchP updateInfo proxies).2
      = match (firstSuccess fetchP (payloadCandidates updateInfo proxies)).2 with
        | some _ => .ok ()
        | none => .error .allAttemptsFailed := by
    rw [downloadModule_eq_firstSuccess]
  constructor
  · refine ⟨?_, ?_, ?_, ?_, ?_, ?_⟩
    · rw [hm1]
      exact firstSuccess_trace_isPrefix fetchM _
    · rw [hm1, firstSuccess_trace_head]
      rfl
    · have h := proxyCandidates_length_le originalURL proxies
      simp only [manifestCandidates, List.length_cons]
      omega
    · rw [hm1]
      exact firstSuccess_dropLast_fail fetchM _
    · intro hne
      cases hs : (firstSuccess fetchM (manifestCandidates originalURL proxies)).2 with
      | none =>
        exact absurd (by rw [hm2, hs]) hne
      | some body =>
        obtain ⟨h, hl⟩ := firstSuccess_last_ok fetchM _ body hs
        rw [hm1]
        exact ⟨h, body, hl, by rw [hm2, hs]⟩
    · rw [hm2]
      cases hs : (firstSuccess fetchM (manifestCandidates originalURL proxies)).2 with
      | some body =>
        constructor
        · intro h
          exact absurd h (parseUpdateJSON_ne_allFailed body)
        · intro hall
          have hnone := (firstSuccess_none_iff fetchM _).mpr hall
          rw [hs] at hnone
          exact absurd hnone (by simp)
      | none =>
        constructor
        · intro _
          exact (firstSuccess_none_iff fetchM _).mp hs
        · intro _
          rfl
  · refine ⟨?_, ?_, payloadCandidates_length_le updateInfo proxies,
      fun hg => payloadCandidates_length_le_of_fixed updateInfo proxies hg, ?_, ?_, ?_, ?_⟩
    · rw [hp1]
      exact firstSuccess_trace_isPrefix fetchP _
    · obtain ⟨rest, hpc⟩ := payloadCandidates_cons updateInfo proxies
      rw [hp1, firstSuccess_trace_head, hpc]
      rfl
    · rw [hp1]
      exact firstSuccess_dropLast_fail fetchP _
    · cases hs : (firstSuccess fetchP (payloadCandidates updateInfo proxies)).2 with
      | some u =>
        cases u
        constructor
        · intro _
          obtain ⟨h, hl⟩ := firstSuccess_last_ok fetchP _ () hs
          rw [hp1]
          exact ⟨h, hl⟩
        · intro _
          rw [hp2, hs]
      | none =>
        constructor
        · intro h
          rw [hp2, hs] at h
          exact absurd h (by simp)
        · rintro ⟨h, hl⟩
          have hall := (firstSuccess_none_iff fetchP _).mp hs
          have hsub : (downloadModule true fetchP updateInfo proxies).1
              ⊆ payloadCandidates updateInfo proxies := by
            rw [hp1]
            exact (firstSuccess_trace_isPrefix fetchP _).subset
          have hmem := hsub (List.getLast_mem h)
          rw [hall _ hmem] at hl
          exact absurd hl (by simp)
    · rw [hp2]
      cases hs : (firstSuccess fetchP (payloadCandidates updateInfo proxies)).2 with
      | some u =>
        constructor
        · intro h
          exact absurd h (by simp)
        · intro hall
          have hnone := (firstSuccess_none_iff fetchP _).mpr hall
          rw [hs] at hnone
          exact absurd hnone (by simp)
      | none =>
        constructor
        · intro _
          exact (firstSuccess_none_iff fetchP _).mp hs
        · intro _
          rfl
    · intro hfail
      rw [hp2] at hfail
      cases hs : (firstSuccess fetchP (payloadCandidates updateInfo proxies)).2 with
      | some u =>
        rw [hs] at hfail
        exact absurd hfail (by simp)
      | none =>
        rw [hp1]
        exact firstSuccess_none_trace fetchP _ hs

def wRec1 : GitHubProxyData := ⟨"https://m1/".toList, [], [], [], 10, 4⟩

def wRec2 : GitHubProxyData := ⟨"https://m2/".toList, [], [], [], 10, 3⟩

def wRec3 : GitHubProxyData := ⟨"https://m3/".toList, [], [], [], 10, 2⟩

def wRec4 : GitHubProxyData := ⟨"https://m4/".toList, [], [], [], 10, 1⟩

def wMirrors : List GitHubProxyData := [wRec3, wRec1, wRec4, wRec2]

def wCanonical : URL := "https://github.com/o/r/releases/latest/download/update.json".toList

def wInfoGood : UpdateInfo :=
  ⟨[], "v1".toList, 100, "https://github.com/o/r/releases/download/v1.0/m.zip".toList⟩

/-- A manifest oracle on which only the third-ranked mirror wrap (ranking by
speed descending: `wRec1`, `wRec2`, `wRec3`, `wRec4`) succeeds. -/
def wFetchM : URL → Option (Option UpdateInfo) :=
  fun u => if u = proxyURL wRec3 wCanonical then some (some wInfoGood) else none

/-- A payload oracle on which the direct attempt succeeds. -/
def wFetchP : URL → Option Unit :=
  fun u => if u = wInfoGood.ZipURL then some () else none

theorem C1_fallback_sequential_amended_witness :
    (downloadUpdateJSON wFetchM wCanonical wMirrors).1 <+: manifestCandidates wCanonical wMirrors
    ∧ (downloadUpdateJSON wFetchM wCanonical wMirrors).1.length = 1 + 3
    ∧ (downloadUpdateJSON wFetchM wCanonical wMirrors).2 = .ok wInfoGood
    ∧ wFetchM ((downloadUpdateJSON wFetchM wCanonical wMirrors).1.getLast (by decide))
        = some (some wInfoGood)
    ∧ (downloadModule true wFetchP wInfoGood wMirrors).1 = [wInfoGood.ZipURL]
    ∧ (downloadModule true wFetchP wInfoGood wMirrors).2 = .ok () := by
  have h := C1_fallback_sequential_amended wFetchM wFetchP wCanonical wInfoGood wMirrors
  refine ⟨h.1.1, by decide, by decide, by decide, by decide, ?_⟩
  exact (h.2.2.2.2.2.2.1).mpr ⟨by decide, by decide⟩

/-- **C4** (counterexample).  When the mirror-wrapped payload URL itself
succeeds, `downloadModule` commits to it: the only attempt is the
mirror-wrapped URL, made before — indeed instead of — any fetch of the true
origin, which never appears in the trace. -/
theorem C4_wrapped_url_fetched_before_origin :
    (downloadModule true (fun _ => some ()) cInfoWrapped []).1 = [cWrappedZip]
    ∧ cWrappedZip = ghMirrorPrefix5 ++ cOrigin
    ∧ extractGitHubURL cWrappedZip = cOrigin
    ∧ cOrigin ∉ (downloadModule true (fun _ => some ()) cInfoWrapped []).1 := by
  decide

/-- **C4** (amended).  Canonicalization is applied to the payload URL after
the direct attempt on it as given fails and before the mirror chain: when the
payload URL carries a known mirror prefix and its direct attempt fails, the
stripped true origin URL is the second attempt, fetched directly before any
mirror-wrapped attempt, and the mirror chain wraps the true origin rather
than the already wrapped URL — so mirror prefixes never compound. -/
theorem C4_origin_direct_after_wrapped_before_mirrors (p : URL)
    (hp : p ∈ mirrorPrefixes) (fetch : URL → Option Unit) (origin : URL)
    (updateInfo : UpdateInfo) (proxies : List GitHubProxyData)
    (hzip : updateInfo.ZipURL = p ++ origin) (hfail : fetch (p ++ origin) = none) :
    extractGitHubURL updateInfo.ZipURL = origin
    ∧ (downloadModule true fetch updateInfo proxies).1.get? 1 = some origin
    ∧ (∃ t, (downloadModule true fetch updateInfo proxies).1 = (p ++ origin) :: origin :: t
        ∧ t <+: proxyCandidates origin proxies)
    ∧ (fetch origin = some () →
        downloadModule true fetch updateInfo proxies = ([p ++ origin, origin], .ok ())) := by
  have hg : extractGitHubURL updateInfo.ZipURL = origin := by
    rw [hzip]
    exact extract_strip p hp origin
  have hpne : p ≠ [] := by
    rcases (by simpa [mirrorPrefixes] using hp : p = ghMirrorPrefix1 ∨ p = ghMirrorPrefix2 ∨
        p = ghMirrorPrefix3 ∨ p = ghMirrorPrefix4 ∨ p = ghMirrorPrefix5) with
      rfl | rfl | rfl | rfl | rfl <;> decide
  have hne : origin ≠ p ++ origin := by
    intro h
    have hlen := congrArg List.length h
    rw [List.length_append] at hlen
    exact hpne (List.length_eq_zero.mp (by omega))
  have hcond : extractGitHubURL updateInfo.ZipURL ≠ updateInfo.ZipURL := by
    rw [hg, hzip]
    exact hne
  have hpc : payloadCandidates updateInfo proxies
      = (p ++ origin) :: origin :: proxyCandidates origin proxies := by
    unfold payloadCandidates
    rw [if_pos hcond, hg, hzip]
  have heq := downloadModule_eq_firstSuccess fetch updateInfo proxies
  rw [hpc] at heq
  cases ho : fetch origin with
  | some u =>
    cases u
    have hfs : firstSuccess fetch ((p ++ origin) :: origin :: proxyCandidates origin proxies)
        = ([p ++ origin, origin], some ()) := by
      simp [firstSuccess, hfail, ho]
    rw [hfs] at heq
    refine ⟨hg, ?_, ⟨[], ?_, List.nil_prefix⟩, fun _ => ?_⟩
    · simp [heq]
    · simp [heq]
    · simp [heq]
  | none =>
    have hfs1 : (firstSuccess fetch
          ((p ++ origin) :: origin :: proxyCandidates origin proxies)).1
        = (p ++ origin) :: origin ::
            (firstSuccess fetch (proxyCandidates origin proxies)).1 := by
      simp [firstSuccess, hfail, ho]
    have h1 : (downloadModule true fetch updateInfo proxies).1
        = (p ++ origin) :: origin ::
            (firstSuccess fetch (proxyCandidates origin proxies)).1 := by
      rw [heq]
      exact hfs1
    refine ⟨hg, by rw [h1]; rfl, ⟨(firstSuccess fetch (proxyCandidates origin proxies)).1, h1,
      firstSuccess_trace_isPrefix fetch _⟩, fun hcontra => ?_⟩
    exact absurd hcontra (by simp)

def c4Fetch : URL → Option Unit := fun u => if u = cOrigin then some () else none

theorem C4_origin_direct_after_wrapped_before_mirrors_witness :
    extractGitHubURL cInfoWrapped.ZipURL = cOrigin
    ∧ (downloadModule true c4Fetch cInfoWrapped wMirrors).1.get? 1 = some cOrigin
    ∧ downloadModule true c4Fetch cInfoWrapped wMirrors = ([cWrappedZip, cOrigin], .ok ()) := by
  have h := C4_origin_direct_after_wrapped_before_mirrors ghMirrorPrefix5 (by decide)
    c4Fetch cOrigin cInfoWrapped wMirrors rfl (by decide)
  exact ⟨h.1, h.2.1, h.2.2.2 (by decide)⟩

/-- **C5.** The URL normalizer is a pure string transform over the fixed set
of known mirror prefixes: a URL starting with a known prefix is returned with
exactly that prefix removed, and any URL starting with no known prefix is
returned unchanged. -/
theorem C5_extractGitHubURL_pure_strip :
    (∀ p ∈ mirrorPrefixes, ∀ rest, extractGitHubURL (p ++ rest) = rest)
    ∧ ∀ url, (∀ p ∈ mirrorPrefixes, ¬ p <+: url) → extractGitHubURL url = url :=
  ⟨fun p hp rest => extract_strip p hp rest, fun url h => extract_miss url h⟩

theorem C5_extractGitHubURL_pure_strip_witness :
    extractGitHubURL
        ("https://mirror.ghproxy.com/https://github.com/a/b/releases/download/v1.0/mod.zip".toList)
      = "https://github.com/a/b/releases/download/v1.0/mod.zip".toList
    ∧ extractGitHubURL ("https://objects.example.net/a/b.zip".toList)
        = "https://objects.example.net/a/b.zip".toList := by
  constructor
  · have heq :
        "https://mirror.ghproxy.com/https://github.com/a/b/releases/download/v1.0/mod.zip".toList
          = ghMirrorPrefix5 ++ "https://github.com/a/b/releases/download/v1.0/mod.zip".toList := by
      decide
    rw [heq]
    exact C5_extractGitHubURL_pure_strip.1 ghMirrorPrefix5 (by decide) _
  · exact C5_extractGitHubURL_pure_strip.2 _ (by decide)

/-- **C10.** The normalizer strips at most one mirror-prefix layer per
application: `canonicalize (p ++ u) = u` for every known prefix `p`, so on a
doubly wrapped URL `p₁ ++ p₂ ++ u` the result is `p₂ ++ u` — the inner mirror
prefix survives — and applying the normalizer again changes the value, i.e.
it is not idempotent on multiply wrapped inputs. -/
theorem C10_extract_strips_one_layer :
    (∀ p ∈ mirrorPrefixes, ∀ u, extractGitHubURL (p ++ u) = u)
    ∧ ∀ p₁ ∈ mirrorPrefixes, ∀ p₂ ∈ mirrorPrefixes, ∀ u,
        extractGitHubURL (p₁ ++ (p₂ ++ u)) = p₂ ++ u
        ∧ extractGitHubURL (extractGitHubURL (p₁ ++ (p₂ ++ u)))
            ≠ extractGitHubURL (p₁ ++ (p₂ ++ u)) := by
  refine ⟨fun p hp u => extract_strip p hp u, fun p₁ h₁ p₂ h₂ u => ⟨extract_strip p₁ h₁ _, ?_⟩⟩
  rw [extract_strip p₁ h₁ (p₂ ++ u), extract_strip p₂ h₂ u]
  intro hcontra
  have hlen := congrArg List.length hcontra
  rw [List.length_append] at hlen
  have hne : p₂ ≠ [] := by
    rcases (by simpa [mirrorPrefixes] using h₂ : p₂ = ghMirrorPrefix1 ∨ p₂ = ghMirrorPrefix2 ∨
        p₂ = ghMirrorPrefix3 ∨ p₂ = ghMirrorPrefix4 ∨ p₂ = ghMirrorPrefix5) with
      rfl | rfl | rfl | rfl | rfl <;> decide
  have hlen0 : p₂.length ≠ 0 := fun h0 => hne (List.length_eq_zero.mp h0)
  omega

theorem C10_extract_strips_one_layer_witness :
    extractGitHubURL (ghMirrorPrefix5 ++ "x".toList) = "x".toList
    ∧ extractGitHubURL (ghMirrorPrefix5 ++ (ghMirrorPrefix1 ++ "x".toList))
        = ghMirrorPrefix1 ++ "x".toList
    ∧ extractGitHubURL (extractGitHubURL (ghMirrorPrefix5 ++ (ghMirrorPrefix1 ++ "x".toList)))
        ≠ extractGitHubURL (ghMirrorPrefix5 ++ (ghMirrorPrefix1 ++ "x".toList)) := by
  obtain ⟨hd, hnid⟩ := C10_extract_strips_one_layer.2 ghMirrorPrefix5 (by decide)
    ghMirrorPrefix1 (by decide) ("x".toList)
  exact ⟨C10_extract_strips_one_layer.1 ghMirrorPrefix5 (by decide) ("x".toList), hd, hnid⟩

/-- **C6.** A manifest whose decoded `zipUrl` is empty — which is also what
an absent `zipUrl` field decodes to — fails parsing with the parse error; a
manifest endpoint that only ever serves such a manifest makes
`downloadUpdateJSON` fail (with the parse error as soon as any attempt
succeeds, or the aggregate error when none does); and when the manifest
phase fails, the fetch-module workflow makes no payload download attempt and
reports the manifest error. -/
theorem C6_missing_zipUrl_no_payload_attempt :
    (∀ u : UpdateInfo, u.ZipURL = [] → parseUpdateJSON (some u) = .error .parseError)
    ∧ (∀ (fm : URL → Option (Option UpdateInfo)) (originalURL : URL)
        (proxies : List GitHubProxyData) (u : UpdateInfo), u.ZipURL = [] →
        (∀ url, fm url = none ∨ fm url = some (some u)) →
        (downloadUpdateJSON fm originalURL proxies).2 = .error .parseError
        ∨ (downloadUpdateJSON fm originalURL proxies).2 = .error .allAttemptsFailed)
    ∧ (∀ (fm : URL → Option (Option UpdateInfo)) (fp : URL → Option Unit)
        (mkdirOk : Bool) (repoArg : URL) (proxies : List GitHubProxyData) (e : DLError),
        normalizeRepoName repoArg ≠ [] →
        (downloadUpdateJSON fm (buildUpdateURL (normalizeRepoName repoArg)) proxies).2
          = .error e →
        (handleGetCommand fm fp mkdirOk repoArg proxies).payloadTrace = []
        ∧ (handleGetCommand fm fp mkdirOk repoArg proxies).result = .error e) := by
  refine ⟨?_, ?_, ?_⟩
  · intro u hu
    simp [parseUpdateJSON, hu]
  · intro fm originalURL proxies u hu hall
    cases hd : fm originalURL with
    | some body =>
      rcases hall originalURL with h | h
      · rw [hd] at h
        exact absurd h (by simp)
      · rw [hd] at h
        obtain rfl : body = some u := Option.some.inj h
        left
        have hdl : downloadUpdateJSON fm originalURL proxies
            = ([originalURL], parseUpdateJSON (some u)) := by
          unfold downloadUpdateJSON
          rw [hd]
        rw [hdl]
        simp [parseUpdateJSON, hu]
    | none =>
      cases hr : (firstSuccess fm (proxyCandidates originalURL proxies)).2 with
      | none =>
        right
        have hfs : (firstSuccess fm (manifestCandidates originalURL proxies)).2 = none := by
          simp [manifestCandidates, firstSuccess, hd, hr]
        rw [downloadUpdateJSON_eq_firstSuccess, hfs]
      | some body =>
        left
        obtain ⟨hne, hlast⟩ := firstSuccess_last_ok fm _ body hr
        rcases hall ((firstSuccess fm (proxyCandidates originalURL proxies)).1.getLast hne)
          with h | h
        · rw [hlast] at h
          exact absurd h (by simp)
        · rw [hlast] at h
          obtain rfl : body = some u := Option.some.inj h
          have hfs : (firstSuccess fm (manifestCandidates originalURL proxies)).2
              = some (some u) := by
            simp [manifestCandidates, firstSuccess, hd, hr]
          rw [downloadUpdateJSON_eq_firstSuccess, hfs]
          simp [parseUpdateJSON, hu]
  · intro fm fp mkdirOk repoArg proxies e hrepo herr
    unfold handleGetCommand
    rw [if_neg hrepo]
    rcases he : downloadUpdateJSON fm (buildUpdateURL (normalizeRepoName repoArg)) proxies
      with ⟨mt, r⟩
    rw [he] at herr
    replace herr : r = .error e := herr
    subst herr
    simp [he]

def wBadInfo : UpdateInfo := ⟨[], "v1".toList, 100, []⟩

def wBadFetchM : URL → Option (Option UpdateInfo) := fun _ => some (some wBadInfo)

def wAnyFetchP : URL → Option Unit := fun _ => some ()

theorem C6_missing_zipUrl_no_payload_attempt_witness :
    parseUpdateJSON (some wBadInfo) = .error .parseError
    ∧ (handleGetCommand wBadFetchM wAnyFetchP true ("o/r".toList) []).payloadTrace = []
    ∧ (handleGetCommand wBadFetchM wAnyFetchP true ("o/r".toList) []).result
        = .error .parseError := by
  refine ⟨C6_missing_zipUrl_no_payload_attempt.1 wBadInfo rfl, ?_, ?_⟩
  · exact (C6_missing_zipUrl_no_payload_attempt.2.2 wBadFetchM wAnyFetchP true
      ("o/r".toList) [] DLError.parseError (by decide) (by decide)).1
  · exact (C6_missing_zipUrl_no_payload_attempt.2.2 wBadFetchM wAnyFetchP true
      ("o/r".toList) [] DLError.parseError (by decide) (by decide)).2

/-! ### Claim theorems for the mirror catalog and best-mirror selection -/

/-- **C2.** A snapshot no older than 10 hours is answered with zero
directory-service calls and exactly the cached records in cached order; an
older snapshot, or an absent or unparseable cache file, triggers exactly one
directory-service call, whose parsed records are returned when the response
is well-formed. -/
theorem C2_cache_freshness_controls_network (e : Env) :
    (∀ c, e.cache = .stored c → e.now - c.CacheTime ≤ cacheValidDuration →
      GetProxies e = ⟨.ok c.Data, e.cache, 0⟩)
    ∧ (∀ c, e.cache = .stored c → cacheValidDuration < e.now - c.CacheTime →
      (GetProxies e).apiCalls = 1)
    ∧ (e.cache = .absent ∨ e.cache = .unreadable → (GetProxies e).apiCalls = 1)
    ∧ (∀ resp, isCacheValid e = false → e.api = .resp 200 (.bytes (some resp)) →
      resp.Code = 200 → (GetProxies e).result = .ok resp.Data) := by
  refine ⟨?_, ?_, ?_, ?_⟩
  · intro c hc hle
    have hv : isCacheValid e = true := by
      simp only [isCacheValid, hc, Bool.not_eq_true', decide_eq_false_iff_not, not_lt]
      exact hle
    simp [GetProxies, hv, loadFromCache, hc]
  · intro c hc hgt
    have hv : isCacheValid e = false := by
      simp only [isCacheValid, hc, Bool.not_eq_false', decide_eq_true_eq]
      exact hgt
    simp [GetProxies, hv]
  · intro hc
    have hv : isCacheValid e = false := by
      rcases hc with hc | hc <;> simp [isCacheValid, hc]
    simp [GetProxies, hv]
  · intro resp hv hapi hcode
    have hf : (fetchFromAPI e).1 = .ok resp.Data := by
      simp [fetchFromAPI, hapi, hcode]
    simp [GetProxies, hv, hf]

def wCachedRec : GitHubProxyData := ⟨"https://wc/".toList, [], [], [], 50, 5⟩

def wFreshRec : GitHubProxyData := ⟨"https://wf/".toList, [], [], [], 60, 6⟩

def nsPerHour : ℤ := 60 * 60 * 1000000000

/-- A directory-service response carrying `wFreshRec`, application code 200. -/
def wAPIResponse : GitHubProxyResponse := ⟨200, [], [wFreshRec], 1, "t2".toList⟩

/-- Snapshot 5 hours old, directory service unreachable: the cache must answer. -/
def wEnvHit : Env :=
  ⟨.stored ⟨[wCachedRec], 0, "t1".toList, 1⟩, 5 * nsPerHour, .err, false, false⟩

/-- Snapshot 11 hours old, well-formed directory response available. -/
def wEnvStale : Env :=
  ⟨.stored ⟨[wCachedRec], 0, "t1".toList, 1⟩, 11 * nsPerHour,
    .resp 200 (.bytes (some wAPIResponse)), false, false⟩

theorem C2_cache_freshness_controls_network_witness :
    GetProxies wEnvHit = ⟨.ok [wCachedRec], wEnvHit.cache, 0⟩
    ∧ (GetProxies wEnvStale).apiCalls = 1
    ∧ (GetProxies wEnvStale).result = .ok [wFreshRec] := by
  refine ⟨(C2_cache_freshness_controls_network wEnvHit).1 _ rfl (by decide),
    (C2_cache_freshness_controls_network wEnvStale).2.1 _ rfl (by decide),
    ?_⟩
  have h := (C2_cache_freshness_controls_network wEnvStale).2.2.2 wAPIResponse
    (by decide) rfl rfl
  exact h

/-- **C7.** When the directory-service query succeeds but persisting the new
snapshot fails, the freshly fetched records are still returned successfully —
identical to those parsed from the response — and the cache file is left as
it was. -/
theorem C7_persist_failure_still_returns_records (e : Env) (resp : GitHubProxyResponse)
    (hsave : e.saveFails = true) (hapi : e.api = .resp 200 (.bytes (some resp)))
    (hcode : resp.Code = 200) :
    fetchFromAPI e = (.ok resp.Data, e.cache)
    ∧ (isCacheValid e = false →
        (GetProxies e).result = .ok resp.Data ∧ (GetProxies e).cacheAfter = e.cache) := by
  have hf : fetchFromAPI e = (.ok resp.Data, e.cache) := by
    simp [fetchFromAPI, hapi, hcode, saveToCache, hsave]
  refine ⟨hf, fun hv => ?_⟩
  constructor <;> simp [GetProxies, hv, hf]

/-- Cache absent, well-formed directory response, but the cache write fails. -/
def wEnvSaveFail : Env :=
  ⟨.absent, 11 * nsPerHour, .resp 200 (.bytes (some wAPIResponse)), true, false⟩

theorem C7_persist_failure_still_returns_records_witness :
    fetchFromAPI wEnvSaveFail = (.ok [wFreshRec], .absent)
    ∧ (GetProxies wEnvSaveFail).result = .ok [wFreshRec]
    ∧ (GetProxies wEnvSaveFail).cacheAfter = .absent := by
  have h := C7_persist_failure_still_returns_records wEnvSaveFail wAPIResponse rfl rfl rfl
  have h2 := h.2 (by decide)
  exact ⟨h.1, h2.1, h2.2⟩

/-- **C8.** Cache clearing is idempotent — clearing an absent file succeeds
and changes nothing, clearing with a working remove always succeeds and
leaves the file absent — and with the file absent the next catalog query
cannot take the cache-hit path: it performs exactly one directory-service
call. -/
theorem C8_clear_idempotent_forces_refresh (e : Env) :
    (e.cache = .absent → ClearCache e = (.ok (), e.cache))
    ∧ (e.removeFails = false → ClearCache e = (.ok (), .absent))
    ∧ ∀ e2 : Env, e2.cache = .absent →
        isCacheValid e2 = false ∧ (GetProxies e2).apiCalls = 1 := by
  refine ⟨?_, ?_, ?_⟩
  · intro hc
    simp [ClearCache, fileExists, hc]
  · intro hr
    cases hc : e.cache with
    | absent => simp [ClearCache, fileExists, hc]
    | unreadable => simp [ClearCache, fileExists, hc, hr]
    | stored c => simp [ClearCache, fileExists, hc, hr]
  · intro e2 hc
    have hv : isCacheValid e2 = false := by simp [isCacheValid, hc]
    exact ⟨hv, by simp [GetProxies, hv]⟩

def wEnvAbsent : Env :=
  ⟨.absent, 5 * nsPerHour, .resp 200 (.bytes (some wAPIResponse)), false, false⟩

theorem C8_clear_idempotent_forces_refresh_witness :
    ClearCache wEnvAbsent = (.ok (), .absent)
    ∧ ClearCache wEnvHit = (.ok (), .absent)
    ∧ isCacheValid wEnvAbsent = false
    ∧ (GetProxies wEnvAbsent).apiCalls = 1 := by
  have habs := (C8_clear_idempotent_forces_refresh wEnvAbsent).1 rfl
  have hrem := (C8_clear_idempotent_forces_refresh wEnvHit).2.1 rfl
  have hnext := (C8_clear_idempotent_forces_refresh wEnvAbsent).2.2 wEnvAbsent rfl
  exact ⟨habs, hrem, hnext.1, hnext.2⟩

theorem foldl_bestStep_mem (l : List GitHubProxyData) (acc : Option GitHubProxyData × ℚ) :
    (l.foldl bestStep acc).1 = acc.1 ∨ ∃ p ∈ l, (l.foldl bestStep acc).1 = some p := by
  induction l generalizing acc with
  | nil => exact Or.inl rfl
  | cons x xs ih =>
    rw [List.foldl_cons]
    by_cases hcond : acc.2 < 0 ∨ proxyScore x > acc.2
    · have hstep : bestStep acc x = (some x, proxyScore x) := by
        simp [bestStep, hcond]
      rcases ih (bestStep acc x) with h | ⟨p, hp, h⟩
      · exact Or.inr ⟨x, List.mem_cons_self x xs, by rw [h, hstep]⟩
      · exact Or.inr ⟨p, List.mem_cons_of_mem x hp, h⟩
    · have hstep : bestStep acc x = acc := by
        simp [bestStep, hcond]
      rcases ih (bestStep acc x) with h | ⟨p, hp, h⟩
      · exact Or.inl (by rw [h, hstep])
      · exact Or.inr ⟨p, List.mem_cons_of_mem x hp, h⟩

/-- **C9.** On any non-empty record list the selection loop returns some
element of the input — never a nil placeholder — because the `-1` sentinel
makes the first record always acceptable; consequently `GetBestProxy` on a
catalog query that yields those records returns that element. -/
theorem C9_best_returns_element (proxies : List GitHubProxyData) (hne : proxies ≠ []) :
    ∃ p, selectBest proxies = some p ∧ p ∈ proxies
      ∧ ∀ e : Env, (GetProxies e).result = .ok proxies → GetBestProxy e = .ok (some p) := by
  obtain ⟨x, xs, rfl⟩ := List.exists_cons_of_ne_nil hne
  have hsel : ∃ p ∈ x :: xs, selectBest (x :: xs) = some p := by
    unfold selectBest
    rw [List.foldl_cons]
    have hstep : bestStep (none, -1) x = (some x, proxyScore x) := by
      have hneg : ((none : Option GitHubProxyData), (-1 : ℚ)).2 < 0 := by norm_num
      simp [bestStep, hneg]
    rcases foldl_bestStep_mem xs (bestStep (none, -1) x) with h | ⟨p, hp, h⟩
    · exact ⟨x, List.mem_cons_self x xs, by rw [h, hstep]⟩
    · exact ⟨p, List.mem_cons_of_mem x hp, h⟩
  obtain ⟨p, hp, hselp⟩ := hsel
  refine ⟨p, hselp, hp, fun e hres => ?_⟩
  unfold GetBestProxy
  rw [hres]
  simp [hselp]

/-- A dead mirror: latency 2000 ms, speed 0 — composite score `-0.4`. -/
def slowRec1 : GitHubProxyData := ⟨"https://s1/".toList, [], [], [], 2000, 0⟩

/-- A deader mirror: latency 3000 ms, speed 0 — composite score `-0.8`. -/
def slowRec2 : GitHubProxyData := ⟨"https://s2/".toList, [], [], [], 3000, 0⟩

theorem C9_best_returns_element_witness :
    selectBest [slowRec1, slowRec2] = some slowRec2
    ∧ slowRec2 ∈ [slowRec1, slowRec2] := by
  obtain ⟨p, hsel, hmem, -⟩ := C9_best_returns_element [slowRec1, slowRec2] (by decide)
  have hcomp : selectBest [slowRec1, slowRec2] = some slowRec2 := by
    norm_num [selectBest, bestStep, proxyScore, slowRec1, slowRec2]
  exact ⟨hcomp, by decide⟩

/-- A valid cached snapshot holding the two dead mirrors. -/
def envC3 : Env :=
  ⟨.stored ⟨[slowRec1, slowRec2], 0, [], 2⟩, 0, .err, false, false⟩

/-- A valid cached snapshot holding an empty record list. -/
def envC3Empty : Env := ⟨.stored ⟨[], 0, [], 0⟩, 0, .err, false, false⟩

/-- **C3** (bug exhibit).  The selection loop does not maximize the composite
score: on the record list `[slowRec1, slowRec2]` every score is negative, so
the `bestScore < 0` sentinel test keeps accepting candidates and the loop
returns `slowRec2`, whose score is strictly lower than `slowRec1`'s — under
the claim the maximal, first-seen `slowRec1` had to win.  The empty-catalog
half of the claim does hold: an empty record list yields the empty-catalog
error. -/
theorem C3_negative_score_sentinel_bug :
    proxyScore slowRec2 < proxyScore slowRec1
    ∧ slowRec1 ≠ slowRec2
    ∧ selectBest [slowRec1, slowRec2] = some slowRec2
    ∧ GetBestProxy envC3 = .ok (some slowRec2)
    ∧ GetBestProxy envC3Empty = .error .emptyCatalog := by
  refine ⟨by norm_num [proxyScore, slowRec1, slowRec2], by decide, ?_, ?_, by decide⟩
  · norm_num [selectBest, bestStep, proxyScore, slowRec1, slowRec2]
  · have hres : (GetProxies envC3).result = .ok [slowRec1, slowRec2] := by decide
    unfold GetBestProxy
    rw [hres]
    norm_num [selectBest, bestStep, proxyScore, slowRec1, slowRec2]
